import Mathlib

/-!
# Coplay connection-role state machine (`coplay_system.cpp`)

A shallow embedding of `CCoplaySystem`: the role machine (`SetRole`, `ConnectToHost`),
the event translators (`ConnectionStatusUpdated`, `LobbyJoined`, `JoinGame`), the level
hooks, the `connect` interception (`CoplayConnect`) and the status projection
`GetConnectCommand`.

The member state `m_role`, `m_oldConnectCallback` and the global `queuedcommand` are
fields of `CCoplaySystem`.  Every call the system makes on its Host / Client sub-objects,
on the Steam APIs, on the engine's command execution and on the console log is appended
to `trace`, in the order it is issued.  What the system reads from outside (console
variables, engine connection state, relay availability, results returned by the
sub-objects) is a field of `World`, supplied afresh to every operation.
-/

namespace Coplay

/-! ## Data model -/

/-- The `ConnectionRole` enumeration. -/
inductive ConnectionRole where
  | eConnectionRole_INACTIVE
  | eConnectionRole_HOST
  | eConnectionRole_CLIENT
  deriving DecidableEq, Repr

open ConnectionRole

/-- The engine's `CCommand`: the tokenised argument vector and the raw command string. -/
structure CCommand where
  m_ppArgv : List String
  m_pArgSBuffer : String
  deriving DecidableEq, Repr

/-- The method `CCommand::ArgC`. -/
def CCommand.ArgC (args : CCommand) : Nat := args.m_ppArgv.length

/-- The method `CCommand::Arg`: the token at `nIndex`, the empty string when out of range. -/
def CCommand.Arg (args : CCommand) (nIndex : Nat) : String :=
  args.m_ppArgv.getD nIndex ""

/-- The method `CCommand::GetCommandString`: the raw command, empty when there are no tokens. -/
def CCommand.GetCommandString (args : CCommand) : String :=
  if args.ArgC ≠ 0 then args.m_pArgSBuffer else ""

/-- The fields of `SteamNetConnectionStatusChangedCallback_t` (connection handle, new and
old connection state); the system only forwards the event. -/
structure SteamNetConnectionStatusChangedCallback_t where
  m_hConn : Nat
  m_eState : Int
  m_eOldState : Int
  deriving DecidableEq, Repr

/-- The fields of `LobbyEnter_t` that `LobbyJoined` reads. -/
structure LobbyEnter_t where
  m_ulSteamIDLobby : Nat
  m_EChatRoomEnterResponse : Nat
  deriving DecidableEq, Repr

/-- The console lines the system prints (`ConColorMsg` / `Warning`), with their arguments. -/
inductive LogLine where
  | badJoinString (command : String)
  | relayNotEstablished
  | joiningLobby (destination : String)
  | invalidSteamID (id : Nat)
  deriving DecidableEq, Repr

/-- One call issued by the system on a collaborator. -/
inductive Op where
  | StartHosting
  | StopHosting
  | HostConnectionStatusUpdated (pParam : SteamNetConnectionStatusChangedCallback_t)
  | CloseConnection
  | ClientConnectToHost (host : Nat)
  | ClientConnectionStatusUpdated (pParam : SteamNetConnectionStatusChangedCallback_t)
  | GetRelayNetworkStatus
  | JoinLobby (steamIDLobby : Nat)
  | ClientCmd_Unrestricted (cmd : String)
  | oldConnectCallback (args : CCommand)
  | Log (line : LogLine)
  deriving DecidableEq, Repr

/-- State of the role machine together with the record of the calls it has issued. -/
structure CCoplaySystem where
  m_role : ConnectionRole
  m_oldConnectCallback : Option Nat
  queuedcommand : String
  trace : List Op
  deriving DecidableEq, Repr

/-- The constructor `CCoplaySystem::CCoplaySystem` and the empty global `queuedcommand`. -/
def CCoplaySystem.init : CCoplaySystem :=
  { m_role := eConnectionRole_INACTIVE, m_oldConnectCallback := none,
    queuedcommand := "", trace := [] }

/-- Record one issued call. -/
def CCoplaySystem.emit (s : CCoplaySystem) (op : Op) : CCoplaySystem :=
  { s with trace := s.trace ++ [op] }

/-! ## Library functions the source calls -/

/-- The method `std::string::find(str)` from position 0: the index of the first occurrence of
`needle`, `none` standing for `npos`. -/
def find : List Char → List Char → Option Nat
  | [], needle => if needle.isPrefixOf [] then some 0 else none
  | c :: rest, needle =>
    if needle.isPrefixOf (c :: rest) then some 0 else (find rest needle).map (· + 1)

/-- The method `std::string::find_first_of(chars)` from position 0: the index of the first character
that is one of `chars`, `none` standing for `npos`. -/
def find_first_of : List Char → List Char → Option Nat
  | [], _ => none
  | c :: rest, chars =>
    if chars.contains c then some 0 else (find_first_of rest chars).map (· + 1)

/-- The exceptions `std::stoull` throws. -/
inductive StdException where
  | invalid_argument
  | out_of_range
  deriving DecidableEq, Repr

deriving instance DecidableEq for Except

/-- The function `isspace` in the C locale. -/
def isspace (c : Char) : Bool :=
  c == ' ' || c == '\t' || c == '\n' || c == '\x0b' || c == '\x0c' || c == '\r'

/-- The function `std::stoull(str)` (base 10, no position out-parameter): skips leading white space,
takes an optional sign and the longest run of decimal digits; throws `invalid_argument`
when there is no digit and `out_of_range` when the digits exceed 64 bits; a leading minus
negates the value modulo `2^64`; what follows the digits is ignored. -/
def stoull (str : String) : Except StdException Nat :=
  let body := str.toList.dropWhile isspace
  let signed : Bool × List Char :=
    match body with
    | '-' :: rest => (true, rest)
    | '+' :: rest => (false, rest)
    | _ => (false, body)
  let digits := signed.2.takeWhile Char.isDigit
  if digits.isEmpty then Except.error StdException.invalid_argument
  else
    let value := digits.foldl (fun acc c => 10 * acc + (c.toNat - 48)) 0
    if 2 ^ 64 ≤ value then Except.error StdException.out_of_range
    else Except.ok (if signed.1 then (2 ^ 64 - value) % 2 ^ 64 else value)

/-- The account-type field of a 64-bit `CSteamID` (bits 52..55), as laid out by the
Steamworks SDK. -/
def CSteamID.m_EAccountType (id : Nat) : Nat := (id / 2 ^ 52) % 2 ^ 4

/-- The account-instance field of a 64-bit `CSteamID` (bits 32..51). -/
def CSteamID.m_unAccountInstance (id : Nat) : Nat := (id / 2 ^ 32) % 2 ^ 20

/-- The method `CSteamID::IsLobby`: account type `k_EAccountTypeChat` (8) with the instance flag
`k_EChatInstanceFlagLobby` (`0x40000`) set. -/
def CSteamID.IsLobby (id : Nat) : Bool :=
  CSteamID.m_EAccountType id == 8 && (CSteamID.m_unAccountInstance id / 2 ^ 18) % 2 == 1

/-- The method `CSteamID::BIndividualAccount`: account type `k_EAccountTypeIndividual` (1) or
`k_EAccountTypeConsoleUser` (9). -/
def CSteamID.BIndividualAccount (id : Nat) : Bool :=
  CSteamID.m_EAccountType id == 1 || CSteamID.m_EAccountType id == 9

/-- The constant `k_ESteamNetworkingAvailability_Current`. -/
def k_ESteamNetworkingAvailability_Current : Int := 100

/-- The constant `k_EChatRoomEnterResponseSuccess`. -/
def k_EChatRoomEnterResponseSuccess : Nat := 1

/-! ## Role machine -/

/-- The method `CCoplaySystem::SetRole`. -/
def SetRole (role : ConnectionRole) (s : CCoplaySystem) : CCoplaySystem :=
  if s.m_role = role then s
  else
    let s1 := match s.m_role with
      | eConnectionRole_HOST => s.emit Op.StopHosting
      | eConnectionRole_CLIENT => s.emit Op.CloseConnection
      | eConnectionRole_INACTIVE => s
    let s2 := match role with
      | eConnectionRole_HOST => s1.emit Op.StartHosting
      | _ => s1
    { s2 with m_role := role }

/-- The method `CCoplaySystem::ConnectToHost`. -/
def ConnectToHost (host : Nat) (s : CCoplaySystem) : CCoplaySystem :=
  (SetRole eConnectionRole_CLIENT s).emit (Op.ClientConnectToHost host)

/-! ## The world outside the system -/

/-- What the system reads from its collaborators during one operation. The two
`ConnectionStatusUpdated` fields are the results the Host and Client sub-objects return
for an event (`true`: the role is no longer active), given the calls issued so far. -/
structure World where
  relayNetworkStatus : Int
  engineIsConnected : Bool
  coplay_use_lobbies : Bool
  coplay_autoopen : Bool
  netinfoIsLoopback : Bool
  netinfoGetAddress : String
  hostConnectionStatusUpdated : List Op → SteamNetConnectionStatusChangedCallback_t → Bool
  clientConnectionStatusUpdated : List Op → SteamNetConnectionStatusChangedCallback_t → Bool
  findCommandConnect : Option Nat
  coplay_joinfilter : Int
  hostGetLobby : Nat
  identityGetSteamID64 : Nat
  hostGetPasscode : String

/-- How a handler ends: it returns, or an exception leaves it. -/
inductive Completion where
  | returned
  | threw (e : StdException)
  deriving DecidableEq, Repr

/-! ## Lifecycle hooks and event translators -/

/-- The method `CCoplaySystem::PostInit`: remembers the callback of the `connect` command,
when the command exists. -/
def PostInit (w : World) (s : CCoplaySystem) : CCoplaySystem :=
  match w.findCommandConnect with
  | none => s
  | some callback => { s with m_oldConnectCallback := some callback }

/-- The method `CCoplaySystem::LevelInitPostEntity`. -/
def LevelInitPostEntity (w : World) (s : CCoplaySystem) : CCoplaySystem :=
  if !(w.netinfoIsLoopback || w.netinfoGetAddress.toList.take 3 == "127".toList) then s
  else if s.m_role = eConnectionRole_INACTIVE ∧ w.coplay_autoopen = true then
    SetRole eConnectionRole_HOST s
  else s

/-- The method `CCoplaySystem::LevelShutdownPreEntity`. -/
def LevelShutdownPreEntity (w : World) (s : CCoplaySystem) : CCoplaySystem :=
  if !w.engineIsConnected then SetRole eConnectionRole_INACTIVE s else s

/-- The method `CCoplaySystem::ConnectionStatusUpdated`. -/
def ConnectionStatusUpdated (w : World) (pParam : SteamNetConnectionStatusChangedCallback_t)
    (s : CCoplaySystem) : CCoplaySystem :=
  let r : Bool × CCoplaySystem :=
    match s.m_role with
    | eConnectionRole_HOST =>
      (w.hostConnectionStatusUpdated s.trace pParam, s.emit (Op.HostConnectionStatusUpdated pParam))
    | eConnectionRole_CLIENT =>
      (w.clientConnectionStatusUpdated s.trace pParam,
        s.emit (Op.ClientConnectionStatusUpdated pParam))
    | eConnectionRole_INACTIVE => (false, s)
  if r.1 then SetRole eConnectionRole_INACTIVE r.2 else r.2

/-- The method `CCoplaySystem::LobbyJoined`. -/
def LobbyJoined (pParam : LobbyEnter_t) (s : CCoplaySystem) : CCoplaySystem :=
  if pParam.m_EChatRoomEnterResponse ≠ k_EChatRoomEnterResponseSuccess then s
  else ConnectToHost pParam.m_ulSteamIDLobby s

/-- The method `CCoplaySystem::LobbyJoinRequested`. -/
def LobbyJoinRequested (m_steamIDLobby : Nat) (s : CCoplaySystem) : CCoplaySystem :=
  s.emit (Op.JoinLobby m_steamIDLobby)

/-- The characters `JoinGame` refuses: apostrophe, double quote, backslash, slash,
semicolon. -/
def joinForbiddenChars : List Char := [Char.ofNat 39, Char.ofNat 34, Char.ofNat 92, '/', ';']

/-- The method `CCoplaySystem::JoinGame` on the connect string `m_rgchConnect` of the event
(a character array, so the null test of the source never fires). Acceptance passes the
string from its second character on to `ClientCmd_Unrestricted`. -/
def JoinGame (m_rgchConnect : String) (s : CCoplaySystem) : CCoplaySystem :=
  let command := m_rgchConnect
  if command.toList.isEmpty
      ∨ find command.toList "+connect".toList ≠ some 0
      ∨ find command.toList "+coplay_connect".toList ≠ some 0
      ∨ find_first_of command.toList joinForbiddenChars ≠ none then
    s.emit (Op.Log (LogLine.badJoinString command))
  else
    s.emit (Op.ClientCmd_Unrestricted (String.mk (command.toList.drop 1)))

/-! ## Commands -/

/-- The method `CCoplaySystem::CoplayConnect`, the handler that replaces `connect`. -/
def CoplayConnect (w : World) (args : CCommand) (s : CCoplaySystem) :
    Completion × CCoplaySystem :=
  if args.ArgC < 1 then (Completion.returned, s)
  else
    let destination := args.Arg 1
    let reason := args.Arg (args.ArgC - 1)
    if find_first_of destination.toList ['.'] ≠ none ∨ destination = "localhost" then
      let s1 := if reason ≠ "coplay" then SetRole eConnectionRole_INACTIVE s else s
      match s1.m_oldConnectCallback with
      | some _ => (Completion.returned, s1.emit (Op.oldConnectCallback args))
      | none => (Completion.returned, s1.emit (Op.ClientCmd_Unrestricted args.GetCommandString))
    else
      let s1 := s.emit Op.GetRelayNetworkStatus
      if w.relayNetworkStatus ≠ k_ESteamNetworkingAvailability_Current then
        (Completion.returned,
          { s1.emit (Op.Log LogLine.relayNotEstablished) with
            queuedcommand := args.GetCommandString })
      else
        let s2 :=
          if w.engineIsConnected then
            (SetRole eConnectionRole_INACTIVE s1).emit (Op.ClientCmd_Unrestricted "disconnect")
          else s1
        match stoull destination with
        | Except.error e => (Completion.threw e, s2)
        | Except.ok id =>
          if w.coplay_use_lobbies = true ∧ CSteamID.IsLobby id = true then
            (Completion.returned,
              (s2.emit (Op.Log (LogLine.joiningLobby destination))).emit (Op.JoinLobby id))
          else if CSteamID.BIndividualAccount id = true then
            (Completion.returned, ConnectToHost id s2)
          else (Completion.returned, s2.emit (Op.Log (LogLine.invalidSteamID id)))

/-- Modelled from the spec: the enumerator `eP2PFilter_CONTROLLED` of the join filter
(the "Controlled-by-passcode" mode), declared in a header that is not among the sources;
its number is immaterial here, every statement compares with the name. -/
def eP2PFilter_CONTROLLED : Int := 0

/-- The method `CCoplaySystem::GetConnectCommand`: the command string it returns, paired
with the state it leaves. `std::to_string` of the 64-bit identifier is its decimal
rendering. -/
def GetConnectCommand (w : World) (s : CCoplaySystem) : String × CCoplaySystem :=
  if s.m_role ≠ eConnectionRole_HOST then ("", s)
  else
    let id := if w.coplay_use_lobbies then w.hostGetLobby else w.identityGetSteamID64
    if w.coplay_joinfilter = eP2PFilter_CONTROLLED ∧ (!w.coplay_use_lobbies) = true then
      ("coplay_connect " ++ Nat.repr id ++ " " ++ w.hostGetPasscode, s)
    else ("coplay_connect " ++ Nat.repr id, s)

/-- The call by which `CoplayConnect` hands a connect to the engine: the callback that
`connect` had before the override, with the arguments as received, or, when there is
none, `ClientCmd_Unrestricted` on the raw command string. -/
def legacyConnect (s : CCoplaySystem) (args : CCommand) : Op :=
  match s.m_oldConnectCallback with
  | some _ => Op.oldConnectCallback args
  | none => Op.ClientCmd_Unrestricted args.m_pArgSBuffer

/-- The test of `LevelInitPostEntity` for a local game: the net channel is a loopback
channel, or its address begins with `127`. -/
def sessionIsLocal (w : World) : Bool :=
  w.netinfoIsLoopback || w.netinfoGetAddress.toList.take 3 == "127".toList

/-- The method `CCoplaySystem::OpenSocket`. -/
def OpenSocket (s : CCoplaySystem) : CCoplaySystem := SetRole eConnectionRole_HOST s

/-- The method `CCoplaySystem::CloseSocket`. -/
def CloseSocket (s : CCoplaySystem) : CCoplaySystem := SetRole eConnectionRole_INACTIVE s

/-! ## Runs of the system -/

/-- One invocation of an operation of the system, with its arguments and the world it
runs in. -/
inductive Call where
  | PostInit (w : World)
  | SetRole (role : ConnectionRole)
  | ConnectToHost (host : Nat)
  | ConnectionStatusUpdated (w : World) (pParam : SteamNetConnectionStatusChangedCallback_t)
  | LobbyJoined (pParam : LobbyEnter_t)
  | LobbyJoinRequested (m_steamIDLobby : Nat)
  | JoinGame (m_rgchConnect : String)
  | LevelInitPostEntity (w : World)
  | LevelShutdownPreEntity (w : World)
  | CoplayConnect (w : World) (args : CCommand)
  | OpenSocket
  | CloseSocket

/-- The state after one invocation (for `CoplayConnect` the state it leaves behind, whether
it returned or threw). -/
def step (s : CCoplaySystem) : Call → CCoplaySystem
  | Call.PostInit w => PostInit w s
  | Call.SetRole role => SetRole role s
  | Call.ConnectToHost host => ConnectToHost host s
  | Call.ConnectionStatusUpdated w pParam => ConnectionStatusUpdated w pParam s
  | Call.LobbyJoined pParam => LobbyJoined pParam s
  | Call.LobbyJoinRequested lobby => LobbyJoinRequested lobby s
  | Call.JoinGame command => JoinGame command s
  | Call.LevelInitPostEntity w => LevelInitPostEntity w s
  | Call.LevelShutdownPreEntity w => LevelShutdownPreEntity w s
  | Call.CoplayConnect w args => (CoplayConnect w args s).2
  | Call.OpenSocket => OpenSocket s
  | Call.CloseSocket => CloseSocket s

/-- The state after a sequence of invocations, from state `s`. -/
def run (s : CCoplaySystem) (calls : List Call) : CCoplaySystem := calls.foldl step s

/-- The effect of one issued call on the liveness of the Host sub-object. -/
def hostLiveStep (live : Bool) : Op → Bool
  | Op.StartHosting => true
  | Op.StopHosting => false
  | _ => live

/-- The effect of one issued call on the liveness of the Client sub-object. -/
def clientLiveStep (live : Bool) : Op → Bool
  | Op.ClientConnectToHost _ => true
  | Op.CloseConnection => false
  | _ => live

/-- The Host sub-object is live: `StartHosting` was issued and no `StopHosting` since. -/
def hostLive (trace : List Op) : Bool := trace.foldl hostLiveStep false

/-- The Client sub-object is live: it was given a connect target and no `CloseConnection`
was issued since. -/
def clientLive (trace : List Op) : Bool := trace.foldl clientLiveStep false

/-- Consistency of role and sub-objects: the Host sub-object is live exactly when the role
is Host, and the Client sub-object is live only when the role is Client. -/
def Consistent (s : CCoplaySystem) : Prop :=
  (hostLive s.trace = true ↔ s.m_role = eConnectionRole_HOST) ∧
  (clientLive s.trace = true → s.m_role = eConnectionRole_CLIENT)

/-- The teardown `SetRole` issues when leaving a role. -/
def teardownOps : ConnectionRole → List Op
  | eConnectionRole_HOST => [Op.StopHosting]
  | eConnectionRole_CLIENT => [Op.CloseConnection]
  | eConnectionRole_INACTIVE => []

/-- The start-up `SetRole` issues when entering a role. -/
def startupOps : ConnectionRole → List Op
  | eConnectionRole_HOST => [Op.StartHosting]
  | _ => []

/-- A world in which the relay is reached, the engine is not connected, lobbies are off
and the sub-objects report every event as fatal. -/
def World.ready : World :=
  { relayNetworkStatus := k_ESteamNetworkingAvailability_Current
    engineIsConnected := false
    coplay_use_lobbies := false
    coplay_autoopen := true
    netinfoIsLoopback := true
    netinfoGetAddress := "loopback"
    hostConnectionStatusUpdated := fun _ _ => true
    clientConnectionStatusUpdated := fun _ _ => true
    findCommandConnect := none
    coplay_joinfilter := eP2PFilter_CONTROLLED
    hostGetLobby := 0
    identityGetSteamID64 := 76561198000000000
    hostGetPasscode := "a1b2c3" }

/-- A world in which the relay is still being reached (`k_ESteamNetworkingAvailability_Attempting`),
the engine holds a connection, lobbies are on and the sub-objects report no event as
fatal. -/
def World.starting : World :=
  { relayNetworkStatus := 3
    engineIsConnected := true
    coplay_use_lobbies := true
    coplay_autoopen := false
    netinfoIsLoopback := false
    netinfoGetAddress := "192.168.1.5:27015"
    hostConnectionStatusUpdated := fun _ _ => false
    clientConnectionStatusUpdated := fun _ _ => false
    findCommandConnect := some 1
    coplay_joinfilter := eP2PFilter_CONTROLLED
    hostGetLobby := 109775241058543776
    identityGetSteamID64 := 76561198000000000
    hostGetPasscode := "a1b2c3" }

/-- The world `World.ready`, but with the engine holding a connection. -/
def World.connected : World := { World.ready with engineIsConnected := true }

/-- A state with role Host, as `SetRole` leaves it from the initial state. -/
def CCoplaySystem.hosting : CCoplaySystem :=
  { CCoplaySystem.init with m_role := eConnectionRole_HOST, trace := [Op.StartHosting] }

/-- A state with role Client, as `ConnectToHost` leaves it from the initial state. -/
def CCoplaySystem.joined : CCoplaySystem :=
  { CCoplaySystem.init with
    m_role := eConnectionRole_CLIENT, trace := [Op.ClientConnectToHost 76561198000000000] }

/-- A world like `World.starting` with the relay reached, the engine not connected and a
local game on a `127` address. -/
def World.lobbies : World :=
  { World.starting with
    relayNetworkStatus := k_ESteamNetworkingAvailability_Current
    engineIsConnected := false
    coplay_autoopen := true
    netinfoGetAddress := "127.0.0.1:27015" }

/-- The state `CCoplaySystem.hosting` after `PostInit` found the `connect` command. -/
def CCoplaySystem.hostingOverridden : CCoplaySystem :=
  { CCoplaySystem.hosting with m_oldConnectCallback := some 1 }

/-! ## Auxiliary lemmas -/

@[simp] theorem emit_m_role (s : CCoplaySystem) (op : Op) : (s.emit op).m_role = s.m_role := rfl

@[simp] theorem emit_trace (s : CCoplaySystem) (op : Op) :
    (s.emit op).trace = s.trace ++ [op] := rfl

@[simp] theorem emit_queuedcommand (s : CCoplaySystem) (op : Op) :
    (s.emit op).queuedcommand = s.queuedcommand := rfl

@[simp] theorem emit_m_oldConnectCallback (s : CCoplaySystem) (op : Op) :
    (s.emit op).m_oldConnectCallback = s.m_oldConnectCallback := rfl

/-- What `SetRole` does, as one equation: teardown of the old role, start-up of the new
one, then the role is committed; nothing at all when the role is already the requested
one. -/
theorem SetRole_eq (role : ConnectionRole) (s : CCoplaySystem) :
    SetRole role s =
      if s.m_role = role then s
      else { s with m_role := role,
                    trace := s.trace ++ (teardownOps s.m_role ++ startupOps role) } := by
  obtain ⟨r, cb, q, t⟩ := s
  cases r <;> cases role <;> simp [SetRole, CCoplaySystem.emit, teardownOps, startupOps]

@[simp] theorem SetRole_m_role (role : ConnectionRole) (s : CCoplaySystem) :
    (SetRole role s).m_role = role := by
  rw [SetRole_eq]; split <;> simp_all

@[simp] theorem SetRole_queuedcommand (role : ConnectionRole) (s : CCoplaySystem) :
    (SetRole role s).queuedcommand = s.queuedcommand := by
  rw [SetRole_eq]; split <;> simp

@[simp] theorem SetRole_m_oldConnectCallback (role : ConnectionRole) (s : CCoplaySystem) :
    (SetRole role s).m_oldConnectCallback = s.m_oldConnectCallback := by
  rw [SetRole_eq]; split <;> simp

theorem find_first_of_ne_none (l chars : List Char) (h : ∃ c ∈ l, c ∈ chars) :
    find_first_of l chars ≠ none := by
  induction l with
  | nil => simp at h
  | cons a rest ih =>
    obtain ⟨c, hc, hmem⟩ := h
    by_cases ha : a ∈ chars
    · simp [find_first_of, ha]
    · have hrest : c ∈ rest := by
        rcases List.mem_cons.mp hc with h1 | h1
        · exact absurd (h1 ▸ hmem) ha
        · exact h1
      have hne := ih ⟨c, hrest, hmem⟩
      cases hf : find_first_of rest chars with
      | none => exact absurd hf hne
      | some n => simp [find_first_of, ha, hf]

theorem hostLive_append (t l : List Op) :
    hostLive (t ++ l) = l.foldl hostLiveStep (hostLive t) := by
  simp [hostLive, List.foldl_append]

theorem clientLive_append (t l : List Op) :
    clientLive (t ++ l) = l.foldl clientLiveStep (clientLive t) := by
  simp [clientLive, List.foldl_append]

theorem Consistent_init : Consistent CCoplaySystem.init := by
  simp [Consistent, CCoplaySystem.init, hostLive, clientLive]

theorem Consistent_SetRole (role : ConnectionRole) (s : CCoplaySystem) (h : Consistent s) :
    Consistent (SetRole role s) := by
  obtain ⟨r, cb, q, t⟩ := s
  rw [SetRole_eq]
  cases r <;> cases role <;>
    simp_all [Consistent, hostLive_append, clientLive_append, teardownOps, startupOps,
      hostLiveStep, clientLiveStep]

theorem Consistent_ConnectToHost (host : Nat) (s : CCoplaySystem) (h : Consistent s) :
    Consistent (ConnectToHost host s) := by
  have h1 := Consistent_SetRole eConnectionRole_CLIENT s h
  have h2 : (SetRole eConnectionRole_CLIENT s).m_role = eConnectionRole_CLIENT :=
    SetRole_m_role _ _
  unfold ConnectToHost
  generalize SetRole eConnectionRole_CLIENT s = s1 at h1 h2
  simp_all [Consistent, hostLive_append, clientLive_append, hostLiveStep, clientLiveStep]

/-- A call that is neither a start-up nor a teardown nor a connect target leaves the
consistency of role and sub-objects as it is. -/
theorem Consistent_emit (s : CCoplaySystem) (op : Op) (h : Consistent s)
    (hh : ∀ b, hostLiveStep b op = b) (hc : ∀ b, clientLiveStep b op = b) :
    Consistent (s.emit op) := by
  unfold Consistent
  rw [emit_trace, emit_m_role, hostLive_append, clientLive_append]
  simp only [List.foldl_cons, List.foldl_nil, hh, hc]
  exact h

theorem Consistent_ConnectionStatusUpdated (w : World)
    (pParam : SteamNetConnectionStatusChangedCallback_t) (s : CCoplaySystem)
    (h : Consistent s) : Consistent (ConnectionStatusUpdated w pParam s) := by
  unfold ConnectionStatusUpdated
  cases hr : s.m_role <;> simp only []
  · exact h
  · split
    · exact Consistent_SetRole _ _ (Consistent_emit _ _ h (fun _ => rfl) (fun _ => rfl))
    · exact Consistent_emit _ _ h (fun _ => rfl) (fun _ => rfl)
  · split
    · exact Consistent_SetRole _ _ (Consistent_emit _ _ h (fun _ => rfl) (fun _ => rfl))
    · exact Consistent_emit _ _ h (fun _ => rfl) (fun _ => rfl)

theorem Consistent_JoinGame (command : String) (s : CCoplaySystem) (h : Consistent s) :
    Consistent (JoinGame command s) := by
  unfold JoinGame
  simp only []
  split <;> exact Consistent_emit _ _ h (fun _ => rfl) (fun _ => rfl)

theorem Consistent_CoplayConnect (w : World) (args : CCommand) (s : CCoplaySystem)
    (h : Consistent s) : Consistent (CoplayConnect w args s).2 := by
  have hrelay : Consistent (s.emit Op.GetRelayNetworkStatus) :=
    Consistent_emit _ _ h (fun _ => rfl) (fun _ => rfl)
  unfold CoplayConnect
  simp only []
  split
  · exact h
  · split
    · have h1 : Consistent
          (if args.Arg (args.ArgC - 1) ≠ "coplay" then SetRole eConnectionRole_INACTIVE s
            else s) := by
        split
        · exact Consistent_SetRole _ _ h
        · exact h
      split <;> exact Consistent_emit _ _ h1 (fun _ => rfl) (fun _ => rfl)
    · split
      · exact Consistent_emit _ _ hrelay (fun _ => rfl) (fun _ => rfl)
      · have h2 : Consistent
            (if w.engineIsConnected = true then
              (SetRole eConnectionRole_INACTIVE (s.emit Op.GetRelayNetworkStatus)).emit
                (Op.ClientCmd_Unrestricted "disconnect")
            else s.emit Op.GetRelayNetworkStatus) := by
          split
          · exact Consistent_emit _ _ (Consistent_SetRole _ _ hrelay)
              (fun _ => rfl) (fun _ => rfl)
          · exact hrelay
        split
        · exact h2
        · split
          · exact Consistent_emit _ _
              (Consistent_emit _ _ h2 (fun _ => rfl) (fun _ => rfl))
              (fun _ => rfl) (fun _ => rfl)
          · split
            · exact Consistent_ConnectToHost _ _ h2
            · exact Consistent_emit _ _ h2 (fun _ => rfl) (fun _ => rfl)

theorem Consistent_step (s : CCoplaySystem) (c : Call) (h : Consistent s) :
    Consistent (step s c) := by
  cases c with
  | PostInit w =>
    simp only [step, PostInit]
    split
    · exact h
    · exact h
  | SetRole role => exact Consistent_SetRole _ _ h
  | ConnectToHost host => exact Consistent_ConnectToHost _ _ h
  | ConnectionStatusUpdated w pParam => exact Consistent_ConnectionStatusUpdated _ _ _ h
  | LobbyJoined pParam =>
    simp only [step, LobbyJoined]
    split
    · exact h
    · exact Consistent_ConnectToHost _ _ h
  | LobbyJoinRequested lobby => exact Consistent_emit _ _ h (fun _ => rfl) (fun _ => rfl)
  | JoinGame command => exact Consistent_JoinGame _ _ h
  | LevelInitPostEntity w =>
    simp only [step, LevelInitPostEntity]
    split
    · exact h
    · split
      · exact Consistent_SetRole _ _ h
      · exact h
  | LevelShutdownPreEntity w =>
    simp only [step, LevelShutdownPreEntity]
    split
    · exact Consistent_SetRole _ _ h
    · exact h
  | CoplayConnect w args => exact Consistent_CoplayConnect _ _ _ h
  | OpenSocket => exact Consistent_SetRole _ _ h
  | CloseSocket => exact Consistent_SetRole _ _ h

theorem Consistent_run (calls : List Call) (s : CCoplaySystem) (h : Consistent s) :
    Consistent (run s calls) := by
  induction calls generalizing s with
  | nil => exact h
  | cons c rest ih => exact ih (step s c) (Consistent_step s c h)

theorem stoull_ok_ArgC (args : CCommand) (id : Nat)
    (h : stoull (args.Arg 1) = Except.ok id) : ¬ args.ArgC < 1 := by
  intro hlt
  have hnil : args.m_ppArgv = [] := by
    have : args.m_ppArgv.length = 0 := by
      have := hlt; unfold CCommand.ArgC at this; omega
    exact List.length_eq_zero.mp this
  have hempty : args.Arg 1 = "" := by simp [CCommand.Arg, hnil]
  have hthrow : stoull "" = Except.error StdException.invalid_argument := by decide
  rw [hempty, hthrow] at h
  exact Except.noConfusion h

theorem stoull_ok_ne_localhost (destination : String) (id : Nat)
    (h : stoull destination = Except.ok id) : destination ≠ "localhost" := by
  intro hEq
  have hthrow : stoull "localhost" = Except.error StdException.invalid_argument := by decide
  rw [hEq, hthrow] at h
  exact Except.noConfusion h

theorem GetCommandString_of_ArgC (args : CCommand) (h : ¬ args.ArgC < 1) :
    args.GetCommandString = args.m_pArgSBuffer := by
  have : args.ArgC ≠ 0 := by omega
  simp [CCommand.GetCommandString, this]

/-- The handler `CoplayConnect` on a destination that is not an address, while the relay
is not reached. -/
theorem CoplayConnect_relay_not_ready (w : World) (args : CCommand) (s : CCoplaySystem)
    (hargc : ¬ args.ArgC < 1)
    (hdot : find_first_of (args.Arg 1).toList ['.'] = none)
    (hlocal : args.Arg 1 ≠ "localhost")
    (hrelay : w.relayNetworkStatus ≠ k_ESteamNetworkingAvailability_Current) :
    CoplayConnect w args s =
      (Completion.returned,
        { s with queuedcommand := args.m_pArgSBuffer,
                 trace := s.trace ++ [Op.GetRelayNetworkStatus,
                   Op.Log LogLine.relayNotEstablished] }) := by
  have haddr : ¬ (find_first_of (args.Arg 1).toList ['.'] ≠ none ∨ args.Arg 1 = "localhost") := by
    rintro (h | h)
    · exact h hdot
    · exact hlocal h
  simp only [CoplayConnect, if_neg hargc, if_neg haddr, if_pos hrelay, CCoplaySystem.emit,
    GetCommandString_of_ArgC args hargc, List.append_assoc, List.singleton_append]

theorem Arg_one_of_ArgC_lt (args : CCommand) (h : args.ArgC < 1) : args.Arg 1 = "" := by
  have hlen : args.m_ppArgv.length = 0 := by
    unfold CCommand.ArgC at h; omega
  simp [CCommand.Arg, List.length_eq_zero.mp hlen]

/-- The handler `CoplayConnect` on a destination that has a dot or is `localhost`. -/
theorem CoplayConnect_address (w : World) (args : CCommand) (s : CCoplaySystem)
    (haddr : find_first_of (args.Arg 1).toList ['.'] ≠ none ∨ args.Arg 1 = "localhost") :
    CoplayConnect w args s =
      (Completion.returned,
        { s with
          m_role := if args.Arg (args.ArgC - 1) = "coplay" then s.m_role
            else eConnectionRole_INACTIVE
          trace := s.trace
            ++ (if args.Arg (args.ArgC - 1) = "coplay" then [] else teardownOps s.m_role)
            ++ [legacyConnect s args] }) := by
  have hargc : ¬ args.ArgC < 1 := by
    intro hlt
    have hempty := Arg_one_of_ArgC_lt args hlt
    rw [hempty] at haddr
    rcases haddr with h | h
    · exact h (by decide)
    · exact absurd h (by decide)
  have hraw := GetCommandString_of_ArgC args hargc
  simp only [CoplayConnect, if_neg hargc, if_pos haddr, hraw]
  obtain ⟨r, cb, q, t⟩ := s
  by_cases hreason : args.Arg (args.ArgC - 1) = "coplay"
  · cases cb <;> simp [hreason, legacyConnect, CCoplaySystem.emit]
  · cases cb <;> cases r <;>
      simp [hreason, legacyConnect, CCoplaySystem.emit, SetRole_eq, teardownOps, startupOps]

theorem find_eq_zero (l needle : List Char) (h : find l needle = some 0) :
    needle.isPrefixOf l = true := by
  cases l with
  | nil =>
    unfold find at h
    by_cases hp : needle.isPrefixOf [] = true
    · exact hp
    · simp [hp] at h
  | cons c rest =>
    unfold find at h
    by_cases hp : needle.isPrefixOf (c :: rest) = true
    · exact hp
    · simp [hp] at h

/-- No string begins with both `+connect` and `+coplay_connect`. -/
theorem no_common_extension (l : List Char)
    (h1 : "+connect".toList.isPrefixOf l = true)
    (h2 : "+coplay_connect".toList.isPrefixOf l = true) : False := by
  have e1 : "+connect".toList = ['+', 'c', 'o', 'n', 'n', 'e', 'c', 't'] := by decide
  have e2 : "+coplay_connect".toList =
      ['+', 'c', 'o', 'p', 'l', 'a', 'y', '_', 'c', 'o', 'n', 'n', 'e', 'c', 't'] := by decide
  rw [e1] at h1
  rw [e2] at h2
  rcases l with _ | ⟨a, _ | ⟨b, _ | ⟨c, _ | ⟨d, rest⟩⟩⟩⟩ <;>
    simp [List.isPrefixOf] at h1 h2
  obtain ⟨-, -, -, hn, -⟩ := h1
  obtain ⟨-, -, -, hp, -⟩ := h2
  rw [← hn] at hp
  exact absurd hp (by decide)

/-! ## Claims -/

/-- C1: when the requested role `b` differs from the current role `a`, `SetRole b` issues
the teardown of `a` (`StopHosting` for Host, `CloseConnection` for Client, nothing for
Inactive), after it the start-up of `b` (`StartHosting` for Host, nothing otherwise), no
other call, and commits the role `b`; nothing else of the state changes. -/
theorem SetRole_teardown_before_startup (s : CCoplaySystem) (b : ConnectionRole)
    (hab : s.m_role ≠ b) :
    SetRole b s =
      { s with m_role := b, trace := s.trace ++ teardownOps s.m_role ++ startupOps b } := by
  rw [SetRole_eq, if_neg hab, List.append_assoc]

theorem SetRole_teardown_before_startup_witness :
    CCoplaySystem.hosting.m_role ≠ eConnectionRole_CLIENT ∧
    SetRole eConnectionRole_CLIENT CCoplaySystem.hosting =
      { CCoplaySystem.hosting with
        m_role := eConnectionRole_CLIENT
        trace := CCoplaySystem.hosting.trace ++ teardownOps CCoplaySystem.hosting.m_role
            ++ startupOps eConnectionRole_CLIENT } :=
  ⟨by decide, SetRole_teardown_before_startup _ _ (by decide)⟩

/-- C2: `SetRole` with the role the system already has leaves the whole state, trace of
issued calls included, unchanged; hence `SetRole x; SetRole x` gives the same state and
the same issued calls as a single `SetRole x`. -/
theorem SetRole_same_role_noop (s : CCoplaySystem) (x : ConnectionRole) :
    SetRole s.m_role s = s ∧ SetRole x (SetRole x s) = SetRole x s := by
  refine ⟨by simp [SetRole], ?_⟩
  have h : (SetRole x s).m_role = x := SetRole_m_role x s
  generalize SetRole x s = s1 at h
  simp [SetRole, h]

/-- C4: `ConnectionStatusUpdated` with role Host (resp. Client) ends Inactive when the Host
(resp. Client) sub-object reports the event as fatal and keeps the role otherwise; with
role Inactive the event is forwarded to no sub-object and the state is unchanged. -/
theorem ConnectionStatusUpdated_role (w : World)
    (pParam : SteamNetConnectionStatusChangedCallback_t) (s : CCoplaySystem) :
    (s.m_role = eConnectionRole_HOST →
      (ConnectionStatusUpdated w pParam s).m_role =
        if w.hostConnectionStatusUpdated s.trace pParam = true then eConnectionRole_INACTIVE
        else s.m_role) ∧
    (s.m_role = eConnectionRole_CLIENT →
      (ConnectionStatusUpdated w pParam s).m_role =
        if w.clientConnectionStatusUpdated s.trace pParam = true then eConnectionRole_INACTIVE
        else s.m_role) ∧
    (s.m_role = eConnectionRole_INACTIVE → ConnectionStatusUpdated w pParam s = s) := by
  refine ⟨?_, ?_, ?_⟩ <;> intro h <;> simp only [ConnectionStatusUpdated, h]
  · split <;> simp_all
  · split <;> simp_all
  · simp

theorem ConnectionStatusUpdated_role_witness :
    (ConnectionStatusUpdated World.ready ⟨1, 5, 3⟩ CCoplaySystem.hosting).m_role
        = eConnectionRole_INACTIVE ∧
    (ConnectionStatusUpdated World.starting ⟨1, 3, 1⟩ CCoplaySystem.joined).m_role
        = eConnectionRole_CLIENT ∧
    ConnectionStatusUpdated World.ready ⟨1, 5, 3⟩ CCoplaySystem.init = CCoplaySystem.init :=
  ⟨(ConnectionStatusUpdated_role World.ready ⟨1, 5, 3⟩ CCoplaySystem.hosting).1 rfl,
   (ConnectionStatusUpdated_role World.starting ⟨1, 3, 1⟩ CCoplaySystem.joined).2.1 rfl,
   (ConnectionStatusUpdated_role World.ready ⟨1, 5, 3⟩ CCoplaySystem.init).2.2 rfl⟩

/-- C5: a connect string that is empty, or that has one of the characters apostrophe,
double quote, backslash, slash, semicolon at any position, is rejected by `JoinGame`
whatever else it contains: the only effect is the warning line, so no command reaches the
engine and the role and the pending command are unchanged. -/
theorem JoinGame_rejects_empty_or_forbidden (command : String) (s : CCoplaySystem)
    (h : command = "" ∨ ∃ c ∈ command.toList, c ∈ joinForbiddenChars) :
    JoinGame command s =
      { s with trace := s.trace ++ [Op.Log (LogLine.badJoinString command)] } := by
  have hguard : command.toList.isEmpty = true
      ∨ find command.toList "+connect".toList ≠ some 0
      ∨ find command.toList "+coplay_connect".toList ≠ some 0
      ∨ find_first_of command.toList joinForbiddenChars ≠ none := by
    rcases h with h | h
    · left; subst h; rfl
    · right; right; right; exact find_first_of_ne_none _ _ h
  simp only [JoinGame, if_pos hguard, CCoplaySystem.emit]

theorem JoinGame_rejects_empty_or_forbidden_witness :
    JoinGame "+connect +coplay_connect 1;quit" CCoplaySystem.hosting =
      { CCoplaySystem.hosting with
        trace := CCoplaySystem.hosting.trace
          ++ [Op.Log (LogLine.badJoinString "+connect +coplay_connect 1;quit")] } :=
  JoinGame_rejects_empty_or_forbidden "+connect +coplay_connect 1;quit" CCoplaySystem.hosting
    (Or.inr ⟨';', by decide, by decide⟩)

/-- C6 (fails on the code): the join string `+connect +coplay_connect 12345` is non-empty,
begins with `+connect`, contains `+coplay_connect` and has no forbidden character, yet
`JoinGame` rejects it: `find("+coplay_connect")` is 9, not 0, so the guard fires, only the
warning line is issued and no command is executed. -/
theorem JoinGame_rejects_marked_join_string :
    "+connect +coplay_connect 12345" ≠ "" ∧
    find "+connect +coplay_connect 12345".toList "+connect".toList = some 0 ∧
    find "+connect +coplay_connect 12345".toList "+coplay_connect".toList = some 9 ∧
    find_first_of "+connect +coplay_connect 12345".toList joinForbiddenChars = none ∧
    JoinGame "+connect +coplay_connect 12345" CCoplaySystem.init =
      { CCoplaySystem.init with
        trace := [Op.Log (LogLine.badJoinString "+connect +coplay_connect 12345")] } := by
  decide

/-- C7 (as stated, fails): the destinations `abc` (does not parse) and
`121597194233983033` (parses to an identifier that is neither an individual account nor a
lobby) are no addresses and are invalid identities. Yet with the relay not reached
`CoplayConnect` replaces the pending command by the raw command, and with the relay
reached and the engine connected it returns having torn the Host role down and issued
`disconnect` before the invalid-identifier warning. -/
theorem CoplayConnect_invalid_identity_changes_state :
    find_first_of "abc".toList ['.'] = none ∧
    stoull "abc" = Except.error StdException.invalid_argument ∧
    CCoplaySystem.hosting.queuedcommand = "" ∧
    (CoplayConnect World.starting ⟨["connect", "abc"], "connect abc"⟩
      CCoplaySystem.hosting).2.queuedcommand = "connect abc" ∧
    (CoplayConnect World.connected ⟨["connect", "abc"], "connect abc"⟩
      CCoplaySystem.hosting).2 =
      { CCoplaySystem.hosting with
        m_role := eConnectionRole_INACTIVE
        trace := [Op.StartHosting, Op.GetRelayNetworkStatus, Op.StopHosting,
          Op.ClientCmd_Unrestricted "disconnect"] } ∧
    find_first_of "121597194233983033".toList ['.'] = none ∧
    stoull "121597194233983033" = Except.ok 121597194233983033 ∧
    CSteamID.BIndividualAccount 121597194233983033 = false ∧
    CSteamID.IsLobby 121597194233983033 = false ∧
    CoplayConnect World.connected
        ⟨["connect", "121597194233983033"], "connect 121597194233983033"⟩
        CCoplaySystem.hosting =
      (Completion.returned,
        { CCoplaySystem.hosting with
          m_role := eConnectionRole_INACTIVE
          trace := [Op.StartHosting, Op.GetRelayNetworkStatus, Op.StopHosting,
            Op.ClientCmd_Unrestricted "disconnect",
            Op.Log (LogLine.invalidSteamID 121597194233983033)] }) := by
  decide

/-- C7 (amended): take a connect attempt whose destination is no address (no dot, not
`localhost`) and is an invalid identity: it does not parse, or it parses to an identifier
that is neither a lobby joinable under the configured mode nor an individual account.
With the relay reached and the engine holding no connection, the role, the pending
command and the legacy callback are unchanged and nothing is issued but the relay status
query and a warning line (no sub-object teardown, no transport, matchmaking or engine
command), and the call returns whenever the token parses. With the relay not reached,
the raw command string is stored as the pending command, the role is unchanged and only
the relay status query and the warning line are issued. With the relay reached and the
engine holding a connection, the role ends Inactive: the teardown of the role held before
and `disconnect` are issued right after the relay status query, ahead of any look at the
token, and after them at most a warning line; the pending command is unchanged. -/
theorem CoplayConnect_invalid_identity (w : World) (args : CCommand)
    (s : CCoplaySystem)
    (hdot : find_first_of (args.Arg 1).toList ['.'] = none)
    (hlocal : args.Arg 1 ≠ "localhost")
    (hinvalid : ∀ id, stoull (args.Arg 1) = Except.ok id →
      ¬ (w.coplay_use_lobbies = true ∧ CSteamID.IsLobby id = true) ∧
      CSteamID.BIndividualAccount id = false) :
    (w.relayNetworkStatus = k_ESteamNetworkingAvailability_Current →
      w.engineIsConnected = false →
        (CoplayConnect w args s).2.m_role = s.m_role ∧
        (CoplayConnect w args s).2.queuedcommand = s.queuedcommand ∧
        (CoplayConnect w args s).2.m_oldConnectCallback = s.m_oldConnectCallback ∧
        (∃ issued, (CoplayConnect w args s).2.trace = s.trace ++ issued ∧
          ∀ op ∈ issued, op = Op.GetRelayNetworkStatus ∨ ∃ line, op = Op.Log line) ∧
        (∀ id, stoull (args.Arg 1) = Except.ok id →
          (CoplayConnect w args s).1 = Completion.returned)) ∧
    (w.relayNetworkStatus ≠ k_ESteamNetworkingAvailability_Current → ¬ args.ArgC < 1 →
      CoplayConnect w args s =
        (Completion.returned,
          { s with
            queuedcommand := args.m_pArgSBuffer
            trace := s.trace ++ [Op.GetRelayNetworkStatus,
              Op.Log LogLine.relayNotEstablished] })) ∧
    (w.relayNetworkStatus = k_ESteamNetworkingAvailability_Current →
      w.engineIsConnected = true → ¬ args.ArgC < 1 →
        (CoplayConnect w args s).2.m_role = eConnectionRole_INACTIVE ∧
        (CoplayConnect w args s).2.queuedcommand = s.queuedcommand ∧
        (CoplayConnect w args s).2.m_oldConnectCallback = s.m_oldConnectCallback ∧
        ∃ log, (CoplayConnect w args s).2.trace =
            s.trace ++ [Op.GetRelayNetworkStatus] ++ teardownOps s.m_role
              ++ [Op.ClientCmd_Unrestricted "disconnect"] ++ log ∧
          ∀ op ∈ log, ∃ line, op = Op.Log line) := by
  have haddr : ¬ (find_first_of (args.Arg 1).toList ['.'] ≠ none ∨ args.Arg 1 = "localhost") := by
    rintro (h | h)
    · exact h hdot
    · exact hlocal h
  refine ⟨?_, ?_, ?_⟩
  · intro hrelay hconn
    have hnot : ¬ (w.relayNetworkStatus ≠ k_ESteamNetworkingAvailability_Current) :=
      fun h => h hrelay
    by_cases hargc : args.ArgC < 1
    · have hres : CoplayConnect w args s = (Completion.returned, s) := by
        simp only [CoplayConnect, if_pos hargc]
      rw [hres]
      exact ⟨rfl, rfl, rfl, ⟨[], by simp, by simp⟩, fun _ _ => rfl⟩
    · cases hparse : stoull (args.Arg 1) with
      | error e =>
        have hres : CoplayConnect w args s =
            (Completion.threw e, s.emit Op.GetRelayNetworkStatus) := by
          simp only [CoplayConnect, if_neg hargc, if_neg haddr, if_neg hnot, hconn, hparse,
            Bool.false_eq_true, if_false]
        rw [hres]
        exact ⟨rfl, rfl, rfl, ⟨[Op.GetRelayNetworkStatus], by simp, by simp⟩,
          fun _ h => Except.noConfusion h⟩
      | ok id =>
        obtain ⟨hlobby, hind⟩ := hinvalid id hparse
        have hres : CoplayConnect w args s =
            (Completion.returned,
              (s.emit Op.GetRelayNetworkStatus).emit (Op.Log (LogLine.invalidSteamID id))) := by
          simp only [CoplayConnect, if_neg hargc, if_neg haddr, if_neg hnot, hconn, hparse,
            if_neg hlobby, hind, Bool.false_eq_true, if_false]
        rw [hres]
        exact ⟨rfl, rfl, rfl,
          ⟨[Op.GetRelayNetworkStatus, Op.Log (LogLine.invalidSteamID id)], by simp, by simp⟩,
          fun _ _ => rfl⟩
  · intro hrelay hargc
    exact CoplayConnect_relay_not_ready w args s hargc hdot hlocal hrelay
  · intro hrelay hconn hargc
    have hnot : ¬ (w.relayNetworkStatus ≠ k_ESteamNetworkingAvailability_Current) :=
      fun h => h hrelay
    cases hparse : stoull (args.Arg 1) with
    | error e =>
      have hres : CoplayConnect w args s =
          (Completion.threw e,
            (SetRole eConnectionRole_INACTIVE (s.emit Op.GetRelayNetworkStatus)).emit
              (Op.ClientCmd_Unrestricted "disconnect")) := by
        simp only [CoplayConnect, if_neg hargc, if_neg haddr, if_neg hnot, hconn, hparse,
          if_true]
      rw [hres]
      refine ⟨by simp, by simp, by simp, [], ?_, by simp⟩
      obtain ⟨r, cb, q, t⟩ := s
      cases r <;> simp [SetRole_eq, CCoplaySystem.emit, teardownOps, startupOps]
    | ok id =>
      obtain ⟨hlobby, hind⟩ := hinvalid id hparse
      have hres : CoplayConnect w args s =
          (Completion.returned,
            ((SetRole eConnectionRole_INACTIVE (s.emit Op.GetRelayNetworkStatus)).emit
              (Op.ClientCmd_Unrestricted "disconnect")).emit
                (Op.Log (LogLine.invalidSteamID id))) := by
        simp only [CoplayConnect, if_neg hargc, if_neg haddr, if_neg hnot, hconn, hparse,
          if_neg hlobby, hind, Bool.false_eq_true, if_false, if_true]
      rw [hres]
      refine ⟨by simp, by simp, by simp, [Op.Log (LogLine.invalidSteamID id)], ?_, by simp⟩
      obtain ⟨r, cb, q, t⟩ := s
      cases r <;> simp [SetRole_eq, CCoplaySystem.emit, teardownOps, startupOps]

theorem CoplayConnect_invalid_identity_witness :
    ((CoplayConnect World.ready
        ⟨["connect", "121597194233983033"], "connect 121597194233983033"⟩
        CCoplaySystem.hosting).2.m_role = CCoplaySystem.hosting.m_role ∧
      (CoplayConnect World.ready
        ⟨["connect", "121597194233983033"], "connect 121597194233983033"⟩
        CCoplaySystem.hosting).1 = Completion.returned) ∧
    CoplayConnect World.starting
        ⟨["connect", "121597194233983033"], "connect 121597194233983033"⟩
        CCoplaySystem.hosting =
      (Completion.returned,
        { CCoplaySystem.hosting with
          queuedcommand := "connect 121597194233983033"
          trace := CCoplaySystem.hosting.trace
            ++ [Op.GetRelayNetworkStatus, Op.Log LogLine.relayNotEstablished] }) ∧
    (CoplayConnect World.connected
        ⟨["connect", "121597194233983033"], "connect 121597194233983033"⟩
        CCoplaySystem.hosting).2.m_role = eConnectionRole_INACTIVE := by
  have hval : stoull "121597194233983033" = Except.ok 121597194233983033 := by decide
  have hinvalid : ∀ (w : World) (id : Nat),
      stoull (CCommand.Arg
        ⟨["connect", "121597194233983033"], "connect 121597194233983033"⟩ 1) = Except.ok id →
      ¬ (w.coplay_use_lobbies = true ∧ CSteamID.IsLobby id = true) ∧
      CSteamID.BIndividualAccount id = false := by
    intro w id h
    have h1 : stoull "121597194233983033" = Except.ok id := h
    rw [hval] at h1
    cases h1
    exact ⟨fun hl => absurd hl.2 (by decide), by decide⟩
  have hready := (CoplayConnect_invalid_identity World.ready
    ⟨["connect", "121597194233983033"], "connect 121597194233983033"⟩ CCoplaySystem.hosting
    (by decide) (by decide) (hinvalid World.ready)).1 (by decide) (by decide)
  exact ⟨⟨hready.1, hready.2.2.2.2 121597194233983033 hval⟩,
    (CoplayConnect_invalid_identity World.starting
      ⟨["connect", "121597194233983033"], "connect 121597194233983033"⟩ CCoplaySystem.hosting
      (by decide) (by decide) (hinvalid World.starting)).2.1 (by decide) (by decide),
    ((CoplayConnect_invalid_identity World.connected
      ⟨["connect", "121597194233983033"], "connect 121597194233983033"⟩ CCoplaySystem.hosting
      (by decide) (by decide) (hinvalid World.connected)).2.2
        (by decide) (by decide) (by decide)).1⟩

/-- C8 (fails on the code): with the relay reached, `connect abc` makes `std::stoull`
throw `invalid_argument`, and nothing in `CoplayConnect` catches it: the handler does not
return. The same happens on a number that does not fit 64 bits (`out_of_range`). -/
theorem CoplayConnect_throws_on_unparseable :
    (CoplayConnect World.ready ⟨["connect", "abc"], "connect abc"⟩ CCoplaySystem.init).1
      = Completion.threw StdException.invalid_argument ∧
    (CoplayConnect World.ready ⟨["connect"], "connect"⟩ CCoplaySystem.init).1
      = Completion.threw StdException.invalid_argument ∧
    (CoplayConnect World.ready ⟨["connect", "99999999999999999999"],
        "connect 99999999999999999999"⟩ CCoplaySystem.init).1
      = Completion.threw StdException.out_of_range := by
  decide

/-- C9: for a destination without a dot that `std::stoull` parses to an identifier `id` of
an individual account, with the relay reached and lobbies off, `CoplayConnect` returns with
role Client, having issued, after the relay status query, first (when the engine held a
connection) the teardown of the prior role and `disconnect`, or else the teardown of the
prior role unless it was already Client, and then exactly one Client connect request, to
`id`; it issues no lobby join and changes nothing else. -/
theorem CoplayConnect_individual_identity (w : World) (args : CCommand) (s : CCoplaySystem)
    (id : Nat)
    (hdot : find_first_of (args.Arg 1).toList ['.'] = none)
    (hparse : stoull (args.Arg 1) = Except.ok id)
    (hind : CSteamID.BIndividualAccount id = true)
    (hrelay : w.relayNetworkStatus = k_ESteamNetworkingAvailability_Current)
    (hlobbies : w.coplay_use_lobbies = false) :
    CoplayConnect w args s =
      (Completion.returned,
        { s with
          m_role := eConnectionRole_CLIENT
          trace := s.trace ++ [Op.GetRelayNetworkStatus]
            ++ (if w.engineIsConnected = true then
                  teardownOps s.m_role ++ [Op.ClientCmd_Unrestricted "disconnect"]
                else if s.m_role = eConnectionRole_CLIENT then []
                else teardownOps s.m_role)
            ++ [Op.ClientConnectToHost id] }) := by
  have hargc := stoull_ok_ArgC args id hparse
  have hlocal := stoull_ok_ne_localhost _ id hparse
  have haddr : ¬ (find_first_of (args.Arg 1).toList ['.'] ≠ none ∨ args.Arg 1 = "localhost") := by
    rintro (h | h)
    · exact h hdot
    · exact hlocal h
  have hnot : ¬ (w.relayNetworkStatus ≠ k_ESteamNetworkingAvailability_Current) :=
    fun h => h hrelay
  have hlobby : ¬ (w.coplay_use_lobbies = true ∧ CSteamID.IsLobby id = true) := by
    rw [hlobbies]; simp
  simp only [CoplayConnect, if_neg hargc, if_neg haddr, if_neg hnot, hparse, if_neg hlobby,
    hind, if_true, ConnectToHost]
  obtain ⟨r, cb, q, t⟩ := s
  cases hconn : w.engineIsConnected <;> cases r <;>
    simp [SetRole_eq, CCoplaySystem.emit, teardownOps, startupOps]

theorem CoplayConnect_individual_identity_witness :
    CoplayConnect World.connected
        ⟨["connect", "76561198000000000"], "connect 76561198000000000"⟩
        CCoplaySystem.hosting =
      (Completion.returned,
        { CCoplaySystem.hosting with
          m_role := eConnectionRole_CLIENT
          trace := CCoplaySystem.hosting.trace ++ [Op.GetRelayNetworkStatus]
            ++ (if World.connected.engineIsConnected = true then
                  teardownOps CCoplaySystem.hosting.m_role
                    ++ [Op.ClientCmd_Unrestricted "disconnect"]
                else if CCoplaySystem.hosting.m_role = eConnectionRole_CLIENT then []
                else teardownOps CCoplaySystem.hosting.m_role)
            ++ [Op.ClientConnectToHost 76561198000000000] }) ∧
    CoplayConnect World.ready
        ⟨["connect", "112589994979242041"], "connect 112589994979242041"⟩
        CCoplaySystem.init =
      (Completion.returned,
        { CCoplaySystem.init with
          m_role := eConnectionRole_CLIENT
          trace := CCoplaySystem.init.trace ++ [Op.GetRelayNetworkStatus]
            ++ (if World.ready.engineIsConnected = true then
                  teardownOps CCoplaySystem.init.m_role
                    ++ [Op.ClientCmd_Unrestricted "disconnect"]
                else if CCoplaySystem.init.m_role = eConnectionRole_CLIENT then []
                else teardownOps CCoplaySystem.init.m_role)
            ++ [Op.ClientConnectToHost 112589994979242041] }) :=
  ⟨CoplayConnect_individual_identity World.connected
      ⟨["connect", "76561198000000000"], "connect 76561198000000000"⟩ CCoplaySystem.hosting
      76561198000000000 (by decide) (by decide) (by decide) (by decide) (by decide),
   CoplayConnect_individual_identity World.ready
      ⟨["connect", "112589994979242041"], "connect 112589994979242041"⟩ CCoplaySystem.init
      112589994979242041 (by decide) (by decide) (by decide) (by decide) (by decide)⟩

/-- C10: for a destination without a dot that parses to an identifier, while the relay is
not reached, `CoplayConnect` returns having stored exactly the raw command string as the
pending command, with the role unchanged and nothing issued but the relay status query
and the warning line; a second such attempt replaces the pending command by its own raw
command string. -/
theorem CoplayConnect_queues_when_relay_not_ready (w1 w2 : World) (args1 args2 : CCommand)
    (s : CCoplaySystem) (id1 id2 : Nat)
    (hdot1 : find_first_of (args1.Arg 1).toList ['.'] = none)
    (hparse1 : stoull (args1.Arg 1) = Except.ok id1)
    (hrelay1 : w1.relayNetworkStatus ≠ k_ESteamNetworkingAvailability_Current)
    (hdot2 : find_first_of (args2.Arg 1).toList ['.'] = none)
    (hparse2 : stoull (args2.Arg 1) = Except.ok id2)
    (hrelay2 : w2.relayNetworkStatus ≠ k_ESteamNetworkingAvailability_Current) :
    CoplayConnect w1 args1 s =
      (Completion.returned,
        { s with
          queuedcommand := args1.m_pArgSBuffer
          trace := s.trace ++ [Op.GetRelayNetworkStatus, Op.Log LogLine.relayNotEstablished] }) ∧
    (CoplayConnect w2 args2 (CoplayConnect w1 args1 s).2).2.queuedcommand
      = args2.m_pArgSBuffer ∧
    (CoplayConnect w2 args2 (CoplayConnect w1 args1 s).2).2.m_role = s.m_role := by
  have h1 := CoplayConnect_relay_not_ready w1 args1 s (stoull_ok_ArgC _ _ hparse1) hdot1
    (stoull_ok_ne_localhost _ _ hparse1) hrelay1
  refine ⟨h1, ?_, ?_⟩
  · rw [CoplayConnect_relay_not_ready w2 args2 _ (stoull_ok_ArgC _ _ hparse2) hdot2
      (stoull_ok_ne_localhost _ _ hparse2) hrelay2]
  · rw [CoplayConnect_relay_not_ready w2 args2 _ (stoull_ok_ArgC _ _ hparse2) hdot2
      (stoull_ok_ne_localhost _ _ hparse2) hrelay2, h1]

theorem CoplayConnect_queues_when_relay_not_ready_witness :
    CoplayConnect World.starting
        ⟨["connect", "76561198000000000"], "connect 76561198000000000"⟩
        CCoplaySystem.hosting =
      (Completion.returned,
        { CCoplaySystem.hosting with
          queuedcommand := "connect 76561198000000000"
          trace := CCoplaySystem.hosting.trace
            ++ [Op.GetRelayNetworkStatus, Op.Log LogLine.relayNotEstablished] }) ∧
    (CoplayConnect World.starting
        ⟨["connect", "109775241058543776", "coplay"], "connect 109775241058543776 coplay"⟩
        (CoplayConnect World.starting
          ⟨["connect", "76561198000000000"], "connect 76561198000000000"⟩
          CCoplaySystem.hosting).2).2.queuedcommand
      = "connect 109775241058543776 coplay" ∧
    (CoplayConnect World.starting
        ⟨["connect", "109775241058543776", "coplay"], "connect 109775241058543776 coplay"⟩
        (CoplayConnect World.starting
          ⟨["connect", "76561198000000000"], "connect 76561198000000000"⟩
          CCoplaySystem.hosting).2).2.m_role = CCoplaySystem.hosting.m_role :=
  CoplayConnect_queues_when_relay_not_ready World.starting World.starting
    ⟨["connect", "76561198000000000"], "connect 76561198000000000"⟩
    ⟨["connect", "109775241058543776", "coplay"], "connect 109775241058543776 coplay"⟩
    CCoplaySystem.hosting 76561198000000000 109775241058543776
    (by decide) (by decide) (by decide) (by decide) (by decide) (by decide)

/-- C11: when the destination (argument 1) contains a dot or is `localhost`,
`CoplayConnect` returns having issued, after at most the teardown of the current role,
exactly one delegation: the former `connect` callback with the arguments as received, or,
when none is registered, `ClientCmd_Unrestricted` on the raw command string. It issues no
relay status query, no lobby join and no Client connect request, does not depend on the
world at all, and leaves the pending command and the stored callback unchanged. -/
theorem CoplayConnect_address_delegates (w : World) (args : CCommand) (s : CCoplaySystem)
    (haddr : '.' ∈ (args.Arg 1).toList ∨ args.Arg 1 = "localhost") :
    (CoplayConnect w args s).1 = Completion.returned ∧
    (CoplayConnect w args s).2.queuedcommand = s.queuedcommand ∧
    (CoplayConnect w args s).2.m_oldConnectCallback = s.m_oldConnectCallback ∧
    (∃ teardown,
      (CoplayConnect w args s).2.trace = s.trace ++ teardown ++ [legacyConnect s args] ∧
      ∀ op ∈ teardown, op = Op.StopHosting ∨ op = Op.CloseConnection) ∧
    ∀ w2 : World, CoplayConnect w2 args s = CoplayConnect w args s := by
  have haddr2 : find_first_of (args.Arg 1).toList ['.'] ≠ none ∨ args.Arg 1 = "localhost" := by
    rcases haddr with h | h
    · exact Or.inl (find_first_of_ne_none _ _ ⟨'.', h, by simp⟩)
    · exact Or.inr h
  have hres := CoplayConnect_address w args s haddr2
  refine ⟨by rw [hres], by rw [hres], by rw [hres], ?_, ?_⟩
  · rw [hres]
    refine ⟨if args.Arg (args.ArgC - 1) = "coplay" then [] else teardownOps s.m_role, rfl, ?_⟩
    intro op hop
    split at hop
    · simp at hop
    · cases hr : s.m_role <;> rw [hr] at hop <;> simp [teardownOps] at hop
      · exact Or.inl hop
      · exact Or.inr hop
  · intro w2
    rw [hres, CoplayConnect_address w2 args s haddr2]

theorem CoplayConnect_address_delegates_witness :
    (CoplayConnect World.ready ⟨["connect", "192.168.1.5"], "connect 192.168.1.5"⟩
      CCoplaySystem.hostingOverridden).1 = Completion.returned ∧
    (CoplayConnect World.ready ⟨["connect", "192.168.1.5"], "connect 192.168.1.5"⟩
      CCoplaySystem.hostingOverridden).2.queuedcommand
      = CCoplaySystem.hostingOverridden.queuedcommand ∧
    (CoplayConnect World.ready ⟨["connect", "192.168.1.5"], "connect 192.168.1.5"⟩
      CCoplaySystem.hostingOverridden).2.m_oldConnectCallback
      = CCoplaySystem.hostingOverridden.m_oldConnectCallback ∧
    (∃ teardown,
      (CoplayConnect World.ready ⟨["connect", "192.168.1.5"], "connect 192.168.1.5"⟩
        CCoplaySystem.hostingOverridden).2.trace
        = CCoplaySystem.hostingOverridden.trace ++ teardown
          ++ [legacyConnect CCoplaySystem.hostingOverridden
                ⟨["connect", "192.168.1.5"], "connect 192.168.1.5"⟩] ∧
      ∀ op ∈ teardown, op = Op.StopHosting ∨ op = Op.CloseConnection) ∧
    ∀ w2 : World,
      CoplayConnect w2 ⟨["connect", "192.168.1.5"], "connect 192.168.1.5"⟩
        CCoplaySystem.hostingOverridden
      = CoplayConnect World.ready ⟨["connect", "192.168.1.5"], "connect 192.168.1.5"⟩
        CCoplaySystem.hostingOverridden :=
  CoplayConnect_address_delegates World.ready
    ⟨["connect", "192.168.1.5"], "connect 192.168.1.5"⟩ CCoplaySystem.hostingOverridden
    (Or.inl (by decide))

/-- C12: on a destination that contains a dot or is `localhost`, when the last argument is
the marker `coplay` the role is unchanged and the delegation to the legacy connect is the
only call issued (no teardown); when the last argument is anything else the role ends
Inactive and the teardown of the role held before is issued ahead of the delegation. -/
theorem CoplayConnect_address_reentry_marker (w : World) (args : CCommand)
    (s : CCoplaySystem)
    (haddr : '.' ∈ (args.Arg 1).toList ∨ args.Arg 1 = "localhost") :
    (args.Arg (args.ArgC - 1) = "coplay" →
      (CoplayConnect w args s).2.m_role = s.m_role ∧
      (CoplayConnect w args s).2.trace = s.trace ++ [legacyConnect s args]) ∧
    (args.Arg (args.ArgC - 1) ≠ "coplay" →
      (CoplayConnect w args s).2.m_role = eConnectionRole_INACTIVE ∧
      (CoplayConnect w args s).2.trace
        = s.trace ++ teardownOps s.m_role ++ [legacyConnect s args]) := by
  have haddr2 : find_first_of (args.Arg 1).toList ['.'] ≠ none ∨ args.Arg 1 = "localhost" := by
    rcases haddr with h | h
    · exact Or.inl (find_first_of_ne_none _ _ ⟨'.', h, by simp⟩)
    · exact Or.inr h
  rw [CoplayConnect_address w args s haddr2]
  constructor
  · intro h
    simp [h]
  · intro h
    simp [h]

theorem CoplayConnect_address_reentry_marker_witness :
    ((CoplayConnect World.ready ⟨["connect", "localhost", "coplay"], "connect localhost coplay"⟩
        CCoplaySystem.joined).2.m_role = CCoplaySystem.joined.m_role ∧
      (CoplayConnect World.ready ⟨["connect", "localhost", "coplay"], "connect localhost coplay"⟩
        CCoplaySystem.joined).2.trace
        = CCoplaySystem.joined.trace
          ++ [legacyConnect CCoplaySystem.joined
                ⟨["connect", "localhost", "coplay"], "connect localhost coplay"⟩]) ∧
    ((CoplayConnect World.ready ⟨["connect", "192.168.1.5"], "connect 192.168.1.5"⟩
        CCoplaySystem.joined).2.m_role = eConnectionRole_INACTIVE ∧
      (CoplayConnect World.ready ⟨["connect", "192.168.1.5"], "connect 192.168.1.5"⟩
        CCoplaySystem.joined).2.trace
        = CCoplaySystem.joined.trace ++ teardownOps CCoplaySystem.joined.m_role
          ++ [legacyConnect CCoplaySystem.joined
                ⟨["connect", "192.168.1.5"], "connect 192.168.1.5"⟩]) :=
  ⟨(CoplayConnect_address_reentry_marker World.ready
      ⟨["connect", "localhost", "coplay"], "connect localhost coplay"⟩ CCoplaySystem.joined
      (Or.inr (by decide))).1 (by decide),
   (CoplayConnect_address_reentry_marker World.ready
      ⟨["connect", "192.168.1.5"], "connect 192.168.1.5"⟩ CCoplaySystem.joined
      (Or.inl (by decide))).2 (by decide)⟩

/-- C13: for a destination without a dot that `std::stoull` parses to an identifier `id` of
a lobby, with the relay reached and lobbies on, `CoplayConnect` returns having issued
exactly one `JoinLobby id` (after the relay status query, the teardown and `disconnect`
when the engine held a connection, and the log line) and no Client connect request; the
role ends Inactive when the engine held a connection and is unchanged otherwise, so the
call never makes the role Client. -/
theorem CoplayConnect_lobby_identity (w : World) (args : CCommand) (s : CCoplaySystem)
    (id : Nat)
    (hdot : find_first_of (args.Arg 1).toList ['.'] = none)
    (hparse : stoull (args.Arg 1) = Except.ok id)
    (hlobby : CSteamID.IsLobby id = true)
    (hrelay : w.relayNetworkStatus = k_ESteamNetworkingAvailability_Current)
    (hlobbies : w.coplay_use_lobbies = true) :
    CoplayConnect w args s =
      (Completion.returned,
        { s with
          m_role := if w.engineIsConnected = true then eConnectionRole_INACTIVE else s.m_role
          trace := s.trace ++ [Op.GetRelayNetworkStatus]
            ++ (if w.engineIsConnected = true then
                  teardownOps s.m_role ++ [Op.ClientCmd_Unrestricted "disconnect"]
                else [])
            ++ [Op.Log (LogLine.joiningLobby (args.Arg 1)), Op.JoinLobby id] }) := by
  have hargc := stoull_ok_ArgC args id hparse
  have hlocal := stoull_ok_ne_localhost _ id hparse
  have haddr : ¬ (find_first_of (args.Arg 1).toList ['.'] ≠ none ∨ args.Arg 1 = "localhost") := by
    rintro (h | h)
    · exact h hdot
    · exact hlocal h
  have hnot : ¬ (w.relayNetworkStatus ≠ k_ESteamNetworkingAvailability_Current) :=
    fun h => h hrelay
  have hboth : w.coplay_use_lobbies = true ∧ CSteamID.IsLobby id = true := ⟨hlobbies, hlobby⟩
  simp only [CoplayConnect, if_neg hargc, if_neg haddr, if_neg hnot, hparse, if_pos hboth]
  obtain ⟨r, cb, q, t⟩ := s
  cases hconn : w.engineIsConnected <;> cases r <;>
    simp [SetRole_eq, CCoplaySystem.emit, teardownOps, startupOps]

theorem CoplayConnect_lobby_identity_witness :
    CoplayConnect World.lobbies
        ⟨["connect", "109775241058543776"], "connect 109775241058543776"⟩
        CCoplaySystem.hosting =
      (Completion.returned,
        { CCoplaySystem.hosting with
          m_role := if World.lobbies.engineIsConnected = true then eConnectionRole_INACTIVE
            else CCoplaySystem.hosting.m_role
          trace := CCoplaySystem.hosting.trace ++ [Op.GetRelayNetworkStatus]
            ++ (if World.lobbies.engineIsConnected = true then
                  teardownOps CCoplaySystem.hosting.m_role
                    ++ [Op.ClientCmd_Unrestricted "disconnect"]
                else [])
            ++ [Op.Log (LogLine.joiningLobby
                  (CCommand.Arg ⟨["connect", "109775241058543776"],
                    "connect 109775241058543776"⟩ 1)),
                Op.JoinLobby 109775241058543776] }) :=
  CoplayConnect_lobby_identity World.lobbies
    ⟨["connect", "109775241058543776"], "connect 109775241058543776"⟩ CCoplaySystem.hosting
    109775241058543776 (by decide) (by decide) (by decide) (by decide) (by decide)

/-- C14: from a role other than Client, `ConnectToHost host` issues the teardown of that
role (`StopHosting` for Host, nothing for Inactive), then exactly one connect request to
the Client sub-object, for exactly `host`, and ends with role Client; nothing else of the
state changes. -/
theorem ConnectToHost_from_other_role (host : Nat) (s : CCoplaySystem)
    (h : s.m_role ≠ eConnectionRole_CLIENT) :
    ConnectToHost host s =
      { s with
        m_role := eConnectionRole_CLIENT
        trace := s.trace ++ teardownOps s.m_role ++ [Op.ClientConnectToHost host] } := by
  obtain ⟨r, cb, q, t⟩ := s
  cases r <;>
    simp_all [ConnectToHost, SetRole_eq, CCoplaySystem.emit, teardownOps, startupOps]

theorem ConnectToHost_from_other_role_witness :
    ConnectToHost 76561198000000000 CCoplaySystem.hosting =
      { CCoplaySystem.hosting with
        m_role := eConnectionRole_CLIENT
        trace := CCoplaySystem.hosting.trace ++ teardownOps CCoplaySystem.hosting.m_role
          ++ [Op.ClientConnectToHost 76561198000000000] } :=
  ConnectToHost_from_other_role 76561198000000000 CCoplaySystem.hosting (by decide)

/-- C15: on a lobby-join completion with the success response, `LobbyJoined` is exactly
one invocation of `ConnectToHost` (on the identifier the event carries): the role is
Client afterwards whatever it was, the teardown of the prior role is issued unless that
role was already Client, and after it exactly one Client connect request; nothing else
changes. On any other response the state, issued calls included, is unchanged. -/
theorem LobbyJoined_success_or_dropped (pParam : LobbyEnter_t) (s : CCoplaySystem) :
    (pParam.m_EChatRoomEnterResponse = k_EChatRoomEnterResponseSuccess →
      LobbyJoined pParam s = ConnectToHost pParam.m_ulSteamIDLobby s ∧
      LobbyJoined pParam s =
        { s with
          m_role := eConnectionRole_CLIENT
          trace := s.trace
            ++ (if s.m_role = eConnectionRole_CLIENT then [] else teardownOps s.m_role)
            ++ [Op.ClientConnectToHost pParam.m_ulSteamIDLobby] }) ∧
    (pParam.m_EChatRoomEnterResponse ≠ k_EChatRoomEnterResponseSuccess →
      LobbyJoined pParam s = s) := by
  constructor
  · intro hok
    have hres : LobbyJoined pParam s = ConnectToHost pParam.m_ulSteamIDLobby s := by
      simp [LobbyJoined, hok]
    refine ⟨hres, ?_⟩
    rw [hres]
    obtain ⟨r, cb, q, t⟩ := s
    cases r <;> simp [ConnectToHost, SetRole_eq, CCoplaySystem.emit, teardownOps, startupOps]
  · intro hbad
    simp [LobbyJoined, hbad]

theorem LobbyJoined_success_or_dropped_witness :
    (LobbyJoined ⟨109775241058543776, 1⟩ CCoplaySystem.hosting
        = ConnectToHost (LobbyEnter_t.m_ulSteamIDLobby ⟨109775241058543776, 1⟩)
            CCoplaySystem.hosting ∧
      LobbyJoined ⟨109775241058543776, 1⟩ CCoplaySystem.hosting =
        { CCoplaySystem.hosting with
          m_role := eConnectionRole_CLIENT
          trace := CCoplaySystem.hosting.trace
            ++ (if CCoplaySystem.hosting.m_role = eConnectionRole_CLIENT then []
                else teardownOps CCoplaySystem.hosting.m_role)
            ++ [Op.ClientConnectToHost
                  (LobbyEnter_t.m_ulSteamIDLobby ⟨109775241058543776, 1⟩)] }) ∧
    LobbyJoined ⟨109775241058543776, 2⟩ CCoplaySystem.hosting = CCoplaySystem.hosting :=
  ⟨(LobbyJoined_success_or_dropped ⟨109775241058543776, 1⟩ CCoplaySystem.hosting).1
      (by decide),
   (LobbyJoined_success_or_dropped ⟨109775241058543776, 2⟩ CCoplaySystem.hosting).2
      (by decide)⟩

/-- C16 (as stated, fails): on a successful join of the lobby `109775241058543776`, the
connect target handed to the Client sub-object is that number itself, which is a lobby
identifier and no individual account, so it is not the peer identity of any lobby owner;
a request to the owner `76561198000000000` is not among the calls issued. -/
theorem LobbyJoined_passes_lobby_identifier :
    (LobbyJoined ⟨109775241058543776, k_EChatRoomEnterResponseSuccess⟩
      CCoplaySystem.init).trace = [Op.ClientConnectToHost 109775241058543776] ∧
    CSteamID.IsLobby 109775241058543776 = true ∧
    CSteamID.BIndividualAccount 109775241058543776 = false ∧
    Op.ClientConnectToHost 76561198000000000 ∉
      (LobbyJoined ⟨109775241058543776, k_EChatRoomEnterResponseSuccess⟩
        CCoplaySystem.init).trace := by
  decide

/-- C16 (amended): on a successful lobby-join completion, the identity `LobbyJoined`
passes to `ConnectToHost`, and hence hands to the Client sub-object as the connect target,
is the lobby identifier `m_ulSteamIDLobby` carried by the event: the call is
`ConnectToHost m_ulSteamIDLobby`, and the one connect request issued carries that
number. -/
theorem LobbyJoined_connect_target (pParam : LobbyEnter_t) (s : CCoplaySystem)
    (hok : pParam.m_EChatRoomEnterResponse = k_EChatRoomEnterResponseSuccess) :
    LobbyJoined pParam s = ConnectToHost pParam.m_ulSteamIDLobby s ∧
    (LobbyJoined pParam s).trace.getLast? = some (Op.ClientConnectToHost pParam.m_ulSteamIDLobby) ∧
    ∀ host, Op.ClientConnectToHost host ∈ (LobbyJoined pParam s).trace →
      host = pParam.m_ulSteamIDLobby ∨ Op.ClientConnectToHost host ∈ s.trace := by
  have hres : LobbyJoined pParam s = ConnectToHost pParam.m_ulSteamIDLobby s := by
    simp [LobbyJoined, hok]
  refine ⟨hres, ?_, ?_⟩
  · rw [hres]
    simp [ConnectToHost]
  · intro host hmem
    rw [hres] at hmem
    obtain ⟨r, cb, q, t⟩ := s
    cases r <;>
      simp [ConnectToHost, SetRole_eq, CCoplaySystem.emit, teardownOps, startupOps] at hmem <;>
      rcases hmem with h | h <;> simp_all

theorem LobbyJoined_connect_target_witness :
    LobbyJoined ⟨109775241058543776, 1⟩ CCoplaySystem.hosting
      = ConnectToHost (LobbyEnter_t.m_ulSteamIDLobby ⟨109775241058543776, 1⟩)
          CCoplaySystem.hosting ∧
    (LobbyJoined ⟨109775241058543776, 1⟩ CCoplaySystem.hosting).trace.getLast?
      = some (Op.ClientConnectToHost
          (LobbyEnter_t.m_ulSteamIDLobby ⟨109775241058543776, 1⟩)) ∧
    ∀ host, Op.ClientConnectToHost host
        ∈ (LobbyJoined ⟨109775241058543776, 1⟩ CCoplaySystem.hosting).trace →
      host = LobbyEnter_t.m_ulSteamIDLobby ⟨109775241058543776, 1⟩
        ∨ Op.ClientConnectToHost host ∈ CCoplaySystem.hosting.trace :=
  LobbyJoined_connect_target ⟨109775241058543776, 1⟩ CCoplaySystem.hosting (by decide)

/-- C17: the hook `LevelInitPostEntity` ends with role Host if and only if the role was
already Host, or the role was Inactive, auto-open is on and the game is local (loopback
channel, or an address beginning with `127`); in that second case it is `SetRole(Host)`,
issuing `StartHosting`; in every other case, a Client role included, the state is
unchanged and nothing is issued. -/
theorem LevelInitPostEntity_role (w : World) (s : CCoplaySystem) :
    ((LevelInitPostEntity w s).m_role = eConnectionRole_HOST ↔
      s.m_role = eConnectionRole_HOST ∨
      (s.m_role = eConnectionRole_INACTIVE ∧ w.coplay_autoopen = true ∧
        sessionIsLocal w = true)) ∧
    (s.m_role = eConnectionRole_INACTIVE ∧ w.coplay_autoopen = true ∧
        sessionIsLocal w = true →
      LevelInitPostEntity w s =
        { s with m_role := eConnectionRole_HOST, trace := s.trace ++ [Op.StartHosting] }) ∧
    (¬ (s.m_role = eConnectionRole_INACTIVE ∧ w.coplay_autoopen = true ∧
        sessionIsLocal w = true) →
      LevelInitPostEntity w s = s) := by
  have hunfold : LevelInitPostEntity w s =
      if (!sessionIsLocal w) = true then s
      else if s.m_role = eConnectionRole_INACTIVE ∧ w.coplay_autoopen = true then
        SetRole eConnectionRole_HOST s
      else s := rfl
  rw [hunfold]
  obtain ⟨r, cb, q, t⟩ := s
  cases hl : sessionIsLocal w <;> cases ha : w.coplay_autoopen <;> cases r <;>
    simp [SetRole_eq, teardownOps, startupOps]

theorem LevelInitPostEntity_role_witness :
    LevelInitPostEntity World.lobbies CCoplaySystem.init =
      { CCoplaySystem.init with
        m_role := eConnectionRole_HOST
        trace := CCoplaySystem.init.trace ++ [Op.StartHosting] } ∧
    LevelInitPostEntity World.lobbies CCoplaySystem.joined = CCoplaySystem.joined ∧
    LevelInitPostEntity World.starting CCoplaySystem.init = CCoplaySystem.init :=
  ⟨(LevelInitPostEntity_role World.lobbies CCoplaySystem.init).2.1 (by decide),
   (LevelInitPostEntity_role World.lobbies CCoplaySystem.joined).2.2 (by decide),
   (LevelInitPostEntity_role World.starting CCoplaySystem.init).2.2 (by decide)⟩

/-- C18 (as stated, fails): hosting with the join filter in the passcode-controlled mode
and lobbies on, `GetConnectCommand` returns `coplay_connect` and the lobby identifier
only; the passcode `a1b2c3` is not appended. -/
theorem GetConnectCommand_lobbies_omit_passcode :
    CCoplaySystem.hosting.m_role = eConnectionRole_HOST ∧
    World.starting.coplay_joinfilter = eP2PFilter_CONTROLLED ∧
    World.starting.coplay_use_lobbies = true ∧
    World.starting.hostGetPasscode = "a1b2c3" ∧
    (GetConnectCommand World.starting CCoplaySystem.hosting).1
      = "coplay_connect 109775241058543776" ∧
    (GetConnectCommand World.starting CCoplaySystem.hosting).1
      ≠ "coplay_connect 109775241058543776 a1b2c3" := by
  decide

/-- C18 (amended): `GetConnectCommand` leaves the state unchanged, returns the empty string
whenever the role is not Host, and while the role is Host returns `coplay_connect `
followed by the decimal rendering of the identifier (the lobby identifier when lobbies
are on, otherwise the local peer identity), followed by a space and the passcode of the
host exactly when the join filter is the passcode-controlled mode and lobbies are off. -/
theorem GetConnectCommand_value (w : World) (s : CCoplaySystem) :
    (GetConnectCommand w s).2 = s ∧
    (s.m_role ≠ eConnectionRole_HOST → (GetConnectCommand w s).1 = "") ∧
    (s.m_role = eConnectionRole_HOST →
      (GetConnectCommand w s).1 =
        "coplay_connect "
          ++ Nat.repr (if w.coplay_use_lobbies = true then w.hostGetLobby
              else w.identityGetSteamID64)
          ++ (if w.coplay_joinfilter = eP2PFilter_CONTROLLED ∧ w.coplay_use_lobbies = false
              then " " ++ w.hostGetPasscode else "")) := by
  refine ⟨?_, ?_, ?_⟩
  · unfold GetConnectCommand
    split
    · rfl
    · simp only []
      split <;> rfl
  · intro h
    simp [GetConnectCommand, h]
  · intro h
    cases hl : w.coplay_use_lobbies <;>
      by_cases hf : w.coplay_joinfilter = eP2PFilter_CONTROLLED <;>
      simp [GetConnectCommand, h, hl, hf, String.append_assoc]

theorem GetConnectCommand_value_witness :
    (GetConnectCommand World.ready CCoplaySystem.init).1 = "" ∧
    (GetConnectCommand World.ready CCoplaySystem.hosting).1 =
      "coplay_connect "
        ++ Nat.repr (if World.ready.coplay_use_lobbies = true then World.ready.hostGetLobby
            else World.ready.identityGetSteamID64)
        ++ (if World.ready.coplay_joinfilter = eP2PFilter_CONTROLLED
              ∧ World.ready.coplay_use_lobbies = false
            then " " ++ World.ready.hostGetPasscode else "") :=
  ⟨(GetConnectCommand_value World.ready CCoplaySystem.init).2.1 (by decide),
   (GetConnectCommand_value World.ready CCoplaySystem.hosting).2.2 (by decide)⟩

/-- C19: for every connect string whatsoever, `JoinGame` passes no command to the engine:
its only effect is the warning line. The guard lets a string through only if `find`
returns 0 both for `+connect` and for `+coplay_connect`, that is, only if the string
begins with both, and no string does. -/
theorem JoinGame_never_executes (command : String) (s : CCoplaySystem) :
    JoinGame command s =
      { s with trace := s.trace ++ [Op.Log (LogLine.badJoinString command)] } ∧
    ∀ cmd, JoinGame command s ≠ s.emit (Op.ClientCmd_Unrestricted cmd) := by
  have hguard : command.toList.isEmpty = true
      ∨ find command.toList "+connect".toList ≠ some 0
      ∨ find command.toList "+coplay_connect".toList ≠ some 0
      ∨ find_first_of command.toList joinForbiddenChars ≠ none := by
    by_cases h1 : find command.toList "+connect".toList = some 0
    · by_cases h2 : find command.toList "+coplay_connect".toList = some 0
      · exact absurd (no_common_extension _ (find_eq_zero _ _ h1) (find_eq_zero _ _ h2)) id
      · exact Or.inr (Or.inr (Or.inl h2))
    · exact Or.inr (Or.inl h1)
  have hres : JoinGame command s =
      { s with trace := s.trace ++ [Op.Log (LogLine.badJoinString command)] } := by
    simp only [JoinGame, if_pos hguard, CCoplaySystem.emit]
  refine ⟨hres, ?_⟩
  intro cmd hEq
  rw [hres] at hEq
  have htrace := congrArg CCoplaySystem.trace hEq
  simp [CCoplaySystem.emit] at htrace

/-- C20: while the role is already Client, `ConnectToHost host` issues no `CloseConnection`
(`SetRole` with the current role does nothing): the only call issued is the connect
request for `host` to the Client sub-object, and the role stays Client. -/
theorem ConnectToHost_while_client (host : Nat) (s : CCoplaySystem)
    (h : s.m_role = eConnectionRole_CLIENT) :
    ConnectToHost host s = { s with trace := s.trace ++ [Op.ClientConnectToHost host] } ∧
    (ConnectToHost host s).m_role = eConnectionRole_CLIENT := by
  obtain ⟨r, cb, q, t⟩ := s
  simp only at h
  subst h
  simp [ConnectToHost, SetRole_eq, CCoplaySystem.emit]

theorem ConnectToHost_while_client_witness :
    ConnectToHost 76561198000000001 CCoplaySystem.joined =
      { CCoplaySystem.joined with
        trace := CCoplaySystem.joined.trace ++ [Op.ClientConnectToHost 76561198000000001] } ∧
    (ConnectToHost 76561198000000001 CCoplaySystem.joined).m_role = eConnectionRole_CLIENT :=
  ConnectToHost_while_client 76561198000000001 CCoplaySystem.joined (by decide)

end Coplay
